import Mathlib

/-!
Verification of the ADK-learning sample projects' specification against a
shallow embedding of the repository's core logic.

The embedded components are:
* the finance agent's data layer (`project3-finance-agent/database.py` and
  `finance_tools.py`): transactions, budgets, goals, and their aggregate
  queries;
* the research assistant's report assembly
  (`project2-research-assistant/document_generator.py`,
  `research_agent.py`);
* the weather assistant's code-to-description table and session-retry logic
  (`project1-weather-assistant/weather_tools.py`, `weather_agent.py`).

Monetary amounts (Python floats) are modelled as rationals, datetimes as
integer timestamps, and SQLite tables as Lean lists of rows.
-/

namespace ADK

/-! ### Finance data model (`database.py`) -/

/-- `TransactionType` enum from `database.py`: INCOME = "income",
EXPENSE = "expense". -/
inductive TransactionType where
  | income
  | expense
deriving DecidableEq

/-- `Transaction` row from `database.py`.  `date` is a timestamp
(`DateTime` in the source), `amount` a rational (Python `Float`). -/
structure Transaction where
  id : Nat
  date : Int
  amount : ℚ
  category : String
  description : String
  transaction_type : TransactionType
deriving DecidableEq

/-- `Budget` row from `database.py`.  `end_date = none` models the SQL
NULL of an open budget. -/
structure Budget where
  id : Nat
  category : String
  amount : ℚ
  period : String
  start_date : Int
  end_date : Option Int
deriving DecidableEq

/-- `Goal` row from `database.py`.  `status` is one of "active",
"achieved", "cancelled" as a free string, exactly as in the source. -/
structure Goal where
  id : Int
  name : String
  target_amount : ℚ
  current_amount : ℚ
  target_date : Option Int
  status : String
deriving DecidableEq

/-- The transactions table: `DatabaseManager` holds a SQLite session; the
table is the list of committed rows in insertion order. -/
abbrev TxnStore := List Transaction

/-- `DatabaseManager.add_transaction` (database.py:69-87): constructs a row
from the arguments and commits it.  The autoincrement primary key is the
next free id; `date` is the resolved value of `date or datetime.now()`.
No validation of any kind is performed on `amount`. -/
def add_transaction (db : TxnStore) (amount : ℚ) (category description : String)
    (ttype : TransactionType) (date : Int) : TxnStore :=
  db ++ [{ id := db.length + 1, date := date, amount := amount,
           category := category, description := description,
           transaction_type := ttype }]

/-- `if start_date: query = query.filter(Transaction.date >= start_date)`
(database.py:99-100).  A `datetime` is always truthy, so the filter is
applied exactly when the argument is present. -/
def startDatePasses (sd : Option Int) (t : Transaction) : Bool :=
  match sd with
  | none => true
  | some d => decide (d ≤ t.date)

/-- `if end_date: query = query.filter(Transaction.date <= end_date)`
(database.py:101-102). -/
def endDatePasses (ed : Option Int) (t : Transaction) : Bool :=
  match ed with
  | none => true
  | some d => decide (t.date ≤ d)

/-- `if category: query = query.filter(Transaction.category == category)`
(database.py:103-104).  Python string truthiness: the filter is applied
only when the category argument is present AND non-empty. -/
def categoryPasses (c : Option String) (t : Transaction) : Bool :=
  match c with
  | none => true
  | some c => if c = "" then true else decide (t.category = c)

/-- `if transaction_type: query = query.filter(...)` (database.py:105-106).
Enum members are truthy, so the filter is applied exactly when present. -/
def typePasses (ty : Option TransactionType) (t : Transaction) : Bool :=
  match ty with
  | none => true
  | some ty => decide (t.transaction_type = ty)

/-- Conjunction of the four optional filters of
`DatabaseManager.get_transactions`. -/
def matchesFilters (sd ed : Option Int) (c : Option String)
    (ty : Option TransactionType) (t : Transaction) : Bool :=
  startDatePasses sd t && endDatePasses ed t && categoryPasses c t && typePasses ty t

/-- `ORDER BY date DESC`: row `a` may precede row `b` when
`b.date <= a.date`. -/
def byDateDesc (a b : Transaction) : Prop := b.date ≤ a.date

instance : DecidableRel byDateDesc := fun a b =>
  inferInstanceAs (Decidable (b.date ≤ a.date))

instance : IsTotal Transaction byDateDesc :=
  ⟨fun a b => (le_total b.date a.date).elim Or.inl Or.inr⟩

instance : IsTrans Transaction byDateDesc :=
  ⟨fun _ _ _ hab hbc => le_trans hbc hab⟩

/-- `DatabaseManager.get_transactions` (database.py:89-108): apply the
supplied filters, then `order_by(Transaction.date.desc())`. -/
def get_transactions (db : TxnStore) (sd ed : Option Int) (c : Option String)
    (ty : Option TransactionType) : List Transaction :=
  List.insertionSort byDateDesc (db.filter (matchesFilters sd ed c ty))

/-- Claim C5: `get_transactions` returns exactly the stored records that
satisfy all supplied filters (as a permutation of the filtered store),
ordered by date descending, and with every filter absent it imposes no
constraint at all, returning the whole store. -/
theorem get_transactions_filters_and_orders (db : TxnStore) (sd ed : Option Int)
    (c : Option String) (ty : Option TransactionType) :
    List.Perm (get_transactions db sd ed c ty) (db.filter (matchesFilters sd ed c ty))
    ∧ List.Sorted byDateDesc (get_transactions db sd ed c ty)
    ∧ List.Perm (get_transactions db none none none none) db := by
  refine ⟨List.perm_insertionSort _ _, List.sorted_insertionSort _ _, ?_⟩
  have h : List.Perm (db.filter (matchesFilters none none none none)) db := by
    rw [List.filter_eq_self.mpr
      (fun a _ => (rfl : matchesFilters none none none none a = true))]
  exact (List.perm_insertionSort _ _).trans h

/-- Claim C10: an empty-string category filter behaves exactly like an
absent one: `get_transactions` with `category = ""` applies no category
constraint (Python's `if category:` is false for the empty string). -/
theorem get_transactions_empty_category (db : TxnStore) (sd ed : Option Int)
    (ty : Option TransactionType) :
    get_transactions db sd ed (some "") ty = get_transactions db sd ed none ty := by
  have h : db.filter (matchesFilters sd ed (some "") ty)
      = db.filter (matchesFilters sd ed none ty) :=
    List.filter_congr (fun t _ => rfl)
  rw [get_transactions, get_transactions, h]

/-! ### Spending aggregation (`get_spending_by_category`) -/

/-- One step of the dict-building loop of `get_spending_by_category`
(database.py:122-124):
`spending[t.category] = spending.get(t.category, 0.0) + t.amount`.
Python dicts preserve insertion order, so an existing key is updated in
place and a new key is appended at the end. -/
def addSpend : List (String × ℚ) → String → ℚ → List (String × ℚ)
  | [], cat, amt => [(cat, 0 + amt)]
  | (c, v) :: rest, cat, amt =>
      if c = cat then (c, v + amt) :: rest else (c, v) :: addSpend rest cat amt

/-- The loop of `get_spending_by_category` over a transaction list. -/
def spendFold (m : List (String × ℚ)) (ts : List Transaction) : List (String × ℚ) :=
  ts.foldl (fun m t => addSpend m t.category t.amount) m

/-- `DatabaseManager.get_spending_by_category` (database.py:110-126):
fetch the expense transactions of the window via `get_transactions`, then
fold them into a category-to-total dictionary starting from `{}`. -/
def get_spending_by_category (db : TxnStore) (sd ed : Option Int) : List (String × ℚ) :=
  spendFold [] (get_transactions db sd ed none (some TransactionType.expense))

/-- Dictionary lookup (`spending.get(category)`), keys being unique. -/
def lookupSpend : List (String × ℚ) → String → Option ℚ
  | [], _ => none
  | (c, v) :: rest, cat => if c = cat then some v else lookupSpend rest cat

theorem lookupSpend_addSpend (m : List (String × ℚ)) (cat : String) (amt : ℚ)
    (c : String) :
    lookupSpend (addSpend m cat amt) c =
      if c = cat then some ((lookupSpend m c).getD 0 + amt) else lookupSpend m c := by
  induction m with
  | nil =>
      by_cases h : c = cat
      · subst h
        simp [addSpend, lookupSpend]
      · have h' : ¬ cat = c := fun hh => h hh.symm
        simp [addSpend, lookupSpend, h, h']
  | cons p rest ih =>
      obtain ⟨k, v⟩ := p
      by_cases hk : k = cat
      · subst hk
        by_cases hkc : c = k
        · subst hkc
          simp [addSpend, lookupSpend]
        · have hkc' : ¬ k = c := fun h => hkc h.symm
          simp [addSpend, lookupSpend, hkc, hkc']
      · by_cases hkc : k = c
        · subst hkc
          simp [addSpend, lookupSpend, hk]
        · simp [addSpend, lookupSpend, hk, hkc, ih]

theorem lookupSpend_spendFold (ts : List Transaction) (m : List (String × ℚ))
    (c : String) :
    lookupSpend (spendFold m ts) c =
      if (ts.filter (fun t => decide (t.category = c))) = [] then lookupSpend m c
      else some ((lookupSpend m c).getD 0
        + (((ts.filter (fun t => decide (t.category = c))).map Transaction.amount).sum)) := by
  induction ts generalizing m with
  | nil => simp [spendFold]
  | cons t rest ih =>
      have hstep : spendFold m (t :: rest) = spendFold (addSpend m t.category t.amount) rest := rfl
      rw [hstep, ih]
      by_cases hc : t.category = c
      · have hc' : c = t.category := hc.symm
        have hfil : (t :: rest).filter (fun t => decide (t.category = c))
            = t :: rest.filter (fun t => decide (t.category = c)) := by
          simp [List.filter_cons, hc]
        rw [hfil, lookupSpend_addSpend, if_pos hc']
        by_cases hrest : rest.filter (fun t => decide (t.category = c)) = []
        · rw [if_pos hrest, hrest]
          simp
        · rw [if_neg hrest, if_neg (List.cons_ne_nil t _)]
          simp [add_assoc]
      · have hc' : ¬ c = t.category := fun h => hc h.symm
        have hfil : (t :: rest).filter (fun t => decide (t.category = c))
            = rest.filter (fun t => decide (t.category = c)) := by
          simp [List.filter_cons, hc]
        rw [hfil, lookupSpend_addSpend, if_neg hc']

/-- Claim C4: in `get_spending_by_category`, each category key maps to the
sum of the amounts of the expense-typed transactions of that category
inside the window (income contributes nothing, since the query filters on
the expense type), a category with no expense transaction in the window is
absent from the mapping rather than mapped to zero, and the end-to-end
example holds: adding expenses of 50 and 30 in category "Food and Dining"
(source spelling uses an ampersand) and querying with no window yields the
single-entry mapping sending that category to 80. -/
theorem get_spending_by_category_spec :
    (∀ (db : TxnStore) (sd ed : Option Int) (c : String),
      lookupSpend (get_spending_by_category db sd ed) c =
        if ((db.filter (matchesFilters sd ed none (some TransactionType.expense))).filter
              (fun t => decide (t.category = c))) = [] then none
        else some ((((db.filter (matchesFilters sd ed none (some TransactionType.expense))).filter
              (fun t => decide (t.category = c))).map Transaction.amount).sum))
    ∧ get_spending_by_category
        (add_transaction
          (add_transaction [] 50 "Food & Dining" "lunch" TransactionType.expense 1)
          30 "Food & Dining" "snack" TransactionType.expense 2) none none
      = [("Food & Dining", 80)] := by
  constructor
  · intro db sd ed c
    rw [get_spending_by_category, lookupSpend_spendFold]
    have hperm : List.Perm
        ((get_transactions db sd ed none (some TransactionType.expense)).filter
          (fun t => decide (t.category = c)))
        ((db.filter (matchesFilters sd ed none (some TransactionType.expense))).filter
          (fun t => decide (t.category = c))) :=
      (List.perm_insertionSort _ _).filter _
    have hnil : ((get_transactions db sd ed none (some TransactionType.expense)).filter
          (fun t => decide (t.category = c))) = []
        ↔ ((db.filter (matchesFilters sd ed none (some TransactionType.expense))).filter
          (fun t => decide (t.category = c))) = [] := by
      constructor
      · intro h; exact List.Perm.eq_nil (h ▸ hperm).symm
      · intro h; exact List.Perm.eq_nil (h ▸ hperm)
    have hsum : (((get_transactions db sd ed none (some TransactionType.expense)).filter
            (fun t => decide (t.category = c))).map Transaction.amount).sum
        = (((db.filter (matchesFilters sd ed none (some TransactionType.expense))).filter
            (fun t => decide (t.category = c))).map Transaction.amount).sum :=
      (hperm.map _).sum_eq
    by_cases h : ((db.filter (matchesFilters sd ed none (some TransactionType.expense))).filter
          (fun t => decide (t.category = c))) = []
    · rw [if_pos (hnil.mpr h), if_pos h]
      rfl
    · rw [if_neg (fun hh => h (hnil.mp hh)), if_neg h, hsum]
      simp [lookupSpend]
  · norm_num [get_spending_by_category, spendFold, get_transactions, add_transaction,
      matchesFilters, startDatePasses, endDatePasses, categoryPasses, typePasses,
      List.insertionSort, List.orderedInsert, addSpend, byDateDesc, List.filter]

/-! ### Transaction amount positivity (claim C1) -/

/-- The arguments of one `add_transaction` call.  Neither the tool wrapper
(finance_tools.py:10-48, which only documents "positive number") nor the
database layer (database.py:69-87) checks the amount in any way. -/
structure AddCall where
  amount : ℚ
  category : String
  description : String
  ttype : TransactionType
  date : Int

/-- A transactions table reachable by a sequence of `add_transaction` calls
from the empty store; `add_transaction` is the only write path to the
`transactions` table in the source. -/
def applyAdds (calls : List AddCall) : TxnStore :=
  calls.foldl
    (fun db c => add_transaction db c.amount c.category c.description c.ttype c.date) []

/-- Counterexample to claim C1 as stated: `add_transaction` performs no
validation of `amount`, so a single call passing the negative amount -50
persists a transaction whose stored amount is -50, i.e. not positive.  The
claim that for all inputs no stored transaction has a non-positive amount
is therefore false on the code. -/
theorem add_transaction_stores_negative_amount :
    ∃ t ∈ applyAdds [⟨-50, "Food & Dining", "lunch", TransactionType.expense, 0⟩],
      t.amount ≤ 0 := by
  refine ⟨{ id := 1, date := 0, amount := -50, category := "Food & Dining",
            description := "lunch", transaction_type := TransactionType.expense },
          ?_, by norm_num⟩
  simp [applyAdds, add_transaction]

/-- Claim C1 amended: `add_transaction` stores the amount verbatim, so the
positivity invariant holds exactly for call sequences whose every call
passes a positive amount: in that case every transaction ever persisted
has a positive amount (direction is carried by the type field only). -/
theorem add_transaction_positive_amounts_preserved (calls : List AddCall)
    (h : ∀ call ∈ calls, 0 < call.amount) :
    ∀ t ∈ applyAdds calls, 0 < t.amount := by
  have key : ∀ (cs : List AddCall) (db : TxnStore),
      (∀ t ∈ db, 0 < t.amount) → (∀ call ∈ cs, 0 < call.amount) →
      ∀ t ∈ cs.foldl
        (fun db c => add_transaction db c.amount c.category c.description c.ttype c.date) db,
        0 < t.amount := by
    intro cs
    induction cs with
    | nil => intro db hdb _ t ht; exact hdb t ht
    | cons c0 rest ih =>
        intro db hdb hcs t ht
        refine ih _ ?_ (fun c hc => hcs c (List.mem_cons_of_mem _ hc)) t ht
        intro t' ht'
        rcases List.mem_append.mp ht' with h1 | h2
        · exact hdb t' h1
        · rw [List.mem_singleton.mp h2]
          exact hcs c0 (List.mem_cons_self _ _)
  exact key calls [] (fun t ht => absurd ht (List.not_mem_nil t)) h

/-- Witness for the amended claim C1 at a concrete call sequence. -/
theorem add_transaction_positive_amounts_preserved_witness :
    (∀ call ∈ [(⟨50, "Salary", "pay", TransactionType.income, 3⟩ : AddCall)],
      0 < call.amount)
    ∧ ∀ t ∈ applyAdds [⟨50, "Salary", "pay", TransactionType.income, 3⟩],
        0 < t.amount :=
  ⟨by norm_num, add_transaction_positive_amounts_preserved _ (by norm_num)⟩

/-! ### Budgets (claim C2) -/

/-- `DatabaseManager.create_budget` (database.py:154-178): stamp
`end_date = now` on every currently-open budget of the category, then
append one new open budget row with `start_date` defaulting to now. -/
def create_budget (db : List Budget) (category : String) (amount : ℚ)
    (period : String) (now : Int) : List Budget :=
  (db.map (fun b =>
    if b.category = category ∧ b.end_date = none then { b with end_date := some now } else b))
  ++ [{ id := db.length + 1, category := category, amount := amount,
        period := period, start_date := now, end_date := none }]

/-- A budget row is "open" for a category when it carries that category and
has no end date (the SQL filter of database.py:162-165). -/
def isOpenFor (c : String) (b : Budget) : Bool :=
  decide (b.category = c) && decide (b.end_date = none)

/-- Number of open budget rows of a category. -/
def openCount (db : List Budget) (c : String) : Nat :=
  db.countP (isOpenFor c)

/-- The arguments of one `create_budget` call. -/
structure BudgetOp where
  category : String
  amount : ℚ
  period : String
  now : Int

/-- A budgets table reachable by a sequence of `create_budget` calls from
the empty store; `create_budget` is the only write path to the `budgets`
table in the source. -/
def applyBudgetOps (ops : List BudgetOp) : List Budget :=
  ops.foldl (fun db op => create_budget db op.category op.amount op.period op.now) []

theorem openCount_create_budget_same (db : List Budget) (c : String) (a : ℚ)
    (p : String) (now : Int) :
    openCount (create_budget db c a p now) c = 1 := by
  have hmap : (db.map (fun b =>
      if b.category = c ∧ b.end_date = none then { b with end_date := some now } else b)).countP
        (isOpenFor c) = 0 := by
    rw [List.countP_eq_zero]
    intro b hb
    rcases List.mem_map.mp hb with ⟨b0, _, rfl⟩
    by_cases hcond : b0.category = c ∧ b0.end_date = none
    · simp [isOpenFor, hcond]
    · simp only [if_neg hcond, isOpenFor]
      rcases not_and_or.mp hcond with hcat | hend
      · simp [hcat]
      · simp [hend]
  rw [openCount, create_budget, List.countP_append, hmap]
  simp [isOpenFor]

theorem openCount_create_budget_other (db : List Budget) (c d : String) (a : ℚ)
    (p : String) (now : Int) (hdc : d ≠ c) :
    openCount (create_budget db c a p now) d = openCount db d := by
  rw [openCount, create_budget, List.countP_append, List.countP_map]
  have hpt : ∀ b ∈ db,
      (isOpenFor d ∘ fun b =>
        if b.category = c ∧ b.end_date = none then { b with end_date := some now } else b) b
      = isOpenFor d b := by
    intro b _
    by_cases hcond : b.category = c ∧ b.end_date = none
    · have hcd : ¬ c = d := fun h => hdc h.symm
      simp [isOpenFor, hcond, Function.comp, hcd]
    · simp [Function.comp, if_neg hcond]
  rw [List.countP_congr (fun b hb => by rw [hpt b hb])]
  have hcd : ¬ c = d := fun h => hdc h.symm
  simp [openCount, isOpenFor, hcd]

/-- Claim C2: after any `create_budget(c, amount, period)` call, from any
state, exactly one (hence at most one) budget row of category `c` is open,
because the call first stamps every open row of `c` with an end date and
then inserts the single new open row; consequently the
at-most-one-open-budget-per-category invariant holds in every state
reachable by `create_budget` operations. -/
theorem create_budget_at_most_one_open :
    (∀ (db : List Budget) (c : String) (a : ℚ) (p : String) (now : Int),
      openCount (create_budget db c a p now) c = 1)
    ∧ (∀ (ops : List BudgetOp) (c : String), openCount (applyBudgetOps ops) c ≤ 1) := by
  refine ⟨openCount_create_budget_same, ?_⟩
  have key : ∀ (ops : List BudgetOp) (db : List Budget),
      (∀ c, openCount db c ≤ 1) →
      ∀ c, openCount (ops.foldl
        (fun db op => create_budget db op.category op.amount op.period op.now) db) c ≤ 1 := by
    intro ops
    induction ops with
    | nil => intro db hdb c; exact hdb c
    | cons op rest ih =>
        intro db hdb c
        refine ih _ ?_ c
        intro d
        by_cases hd : d = op.category
        · rw [hd, openCount_create_budget_same]
        · rw [openCount_create_budget_other _ _ _ _ _ _ hd]
          exact hdb d
  intro ops c
  refine key ops [] (fun d => ?_) c
  simp [openCount]

/-! ### Goals (claim C3) -/

/-- `DatabaseManager.update_goal_progress` (database.py:205-213): find the
first goal with the given id; overwrite its current amount with the new
value (absolute set), and set the status to "achieved" when the new value
reaches the target; otherwise the status is left untouched.  When no goal
matches, nothing changes. -/
def update_goal_progress : List Goal → Int → ℚ → List Goal
  | [], _, _ => []
  | g :: gs, gid, amt =>
      if g.id = gid then
        { g with current_amount := amt,
                 status := if g.target_amount ≤ amt then "achieved" else g.status } :: gs
      else g :: update_goal_progress gs gid amt

/-- `query(Goal).filter(Goal.id == goal_id).first()`. -/
def lookupGoal : List Goal → Int → Option Goal
  | [], _ => none
  | g :: gs, gid => if g.id = gid then some g else lookupGoal gs gid

/-- Claim C3: `update_goal_progress` overwrites the matched goal's current
amount with the new value (absolute set, not increment) and its status is
"achieved" exactly when the new value reaches the target, the previous
status being kept otherwise; in particular a goal whose status is already
"achieved" keeps that status under any later update, including one with a
value below the target. -/
theorem update_goal_progress_spec :
    (∀ (gs : List Goal) (gid : Int) (amt : ℚ),
      lookupGoal (update_goal_progress gs gid amt) gid =
        (lookupGoal gs gid).map (fun g =>
          { g with current_amount := amt,
                   status := if g.target_amount ≤ amt then "achieved" else g.status }))
    ∧ (∀ (gs : List Goal) (gid : Int) (amt : ℚ) (g : Goal),
        lookupGoal gs gid = some g → g.status = "achieved" →
        ∃ g', lookupGoal (update_goal_progress gs gid amt) gid = some g'
          ∧ g'.status = "achieved") := by
  have part1 : ∀ (gs : List Goal) (gid : Int) (amt : ℚ),
      lookupGoal (update_goal_progress gs gid amt) gid =
        (lookupGoal gs gid).map (fun g =>
          { g with current_amount := amt,
                   status := if g.target_amount ≤ amt then "achieved" else g.status }) := by
    intro gs gid amt
    induction gs with
    | nil => rfl
    | cons g rest ih =>
        by_cases hid : g.id = gid
        · simp [update_goal_progress, lookupGoal, hid]
        · simp [update_goal_progress, lookupGoal, hid, ih]
  refine ⟨part1, ?_⟩
  intro gs gid amt g hg hstat
  rw [part1, hg]
  refine ⟨_, rfl, ?_⟩
  by_cases hamt : g.target_amount ≤ amt
  · simp [hamt]
  · simp [hamt, hstat]

/-- A concrete goal row already marked "achieved" (current 120, target 100),
used by the witness of claim C3. -/
def achievedGoal : Goal :=
  { id := 1, name := "fund", target_amount := 100, current_amount := 120,
    target_date := none, status := "achieved" }

/-- Witness for claim C3 at a concrete store: a goal already "achieved"
(current 120 of target 100) updated down to 10 keeps status "achieved". -/
theorem update_goal_progress_spec_witness :
    (lookupGoal [achievedGoal] 1 = some achievedGoal
      ∧ achievedGoal.status = "achieved")
    ∧ ∃ g', lookupGoal (update_goal_progress [achievedGoal] 1 10) 1 = some g'
        ∧ g'.status = "achieved" :=
  ⟨⟨rfl, rfl⟩, update_goal_progress_spec.2 [achievedGoal] 1 10 achievedGoal rfl rfl⟩

/-! ### Weather code descriptions (claim C9) -/

/-- The fixed WMO weather-code table of `_get_weather_description`
(weather_tools.py:125-150), as (code, main, description) entries, in
source order. -/
def weather_codes : List (Int × String × String) := [
  (0, "Clear", "clear sky"),
  (1, "Mainly Clear", "mainly clear"),
  (2, "Partly Cloudy", "partly cloudy"),
  (3, "Overcast", "overcast"),
  (45, "Foggy", "fog"),
  (48, "Foggy", "depositing rime fog"),
  (51, "Drizzle", "light drizzle"),
  (53, "Drizzle", "moderate drizzle"),
  (55, "Drizzle", "dense drizzle"),
  (61, "Rain", "slight rain"),
  (63, "Rain", "moderate rain"),
  (65, "Rain", "heavy rain"),
  (71, "Snow", "slight snow"),
  (73, "Snow", "moderate snow"),
  (75, "Snow", "heavy snow"),
  (77, "Snow", "snow grains"),
  (80, "Rain Showers", "slight rain showers"),
  (81, "Rain Showers", "moderate rain showers"),
  (82, "Rain Showers", "violent rain showers"),
  (85, "Snow Showers", "slight snow showers"),
  (86, "Snow Showers", "heavy snow showers"),
  (95, "Thunderstorm", "thunderstorm"),
  (96, "Thunderstorm", "thunderstorm with slight hail"),
  (99, "Thunderstorm", "thunderstorm with heavy hail")]

/-- Python dictionary lookup by key. -/
def lookupWeatherCode : List (Int × String × String) → Int → Option (String × String)
  | [], _ => none
  | (k, m, d) :: rest, code =>
      if k = code then some (m, d) else lookupWeatherCode rest code

/-- `_get_weather_description` (weather_tools.py:120-151):
`weather_codes.get(code, default)` with the fixed default
("Unknown", "unknown conditions").  The embedding is a total Lean
function, mirroring that the source can never raise. -/
def get_weather_description (code : Int) : String × String :=
  (lookupWeatherCode weather_codes code).getD ("Unknown", "unknown conditions")

theorem lookupWeatherCode_eq_none (l : List (Int × String × String)) (code : Int)
    (h : ∀ e ∈ l, e.1 ≠ code) : lookupWeatherCode l code = none := by
  induction l with
  | nil => rfl
  | cons e rest ih =>
      obtain ⟨k, m, d⟩ := e
      have hk : ¬ k = code := h (k, m, d) (List.mem_cons_self _ _)
      rw [lookupWeatherCode, if_neg hk]
      exact ih (fun e he => h e (List.mem_cons_of_mem _ he))

/-- Claim C9: the weather-code mapping is a total function that never
raises; code 0 maps to main "Clear" with description "clear sky", and any
integer code outside the fixed table maps to "Unknown" with
"unknown conditions". -/
theorem get_weather_description_spec :
    get_weather_description 0 = ("Clear", "clear sky")
    ∧ ∀ code : Int, (∀ e ∈ weather_codes, e.1 ≠ code) →
        get_weather_description code = ("Unknown", "unknown conditions") := by
  refine ⟨rfl, fun code h => ?_⟩
  rw [get_weather_description, lookupWeatherCode_eq_none weather_codes code h]
  rfl

/-- Witness for claim C9 at the unrecognized code 42. -/
theorem get_weather_description_spec_witness :
    (∀ e ∈ weather_codes, e.1 ≠ (42 : Int))
    ∧ get_weather_description 42 = ("Unknown", "unknown conditions") :=
  ⟨by decide, get_weather_description_spec.2 42 (by decide)⟩

/-! ### Session-expiry retry in `WeatherAgent.query` (claim C7) -/

/-- One outcome of a `runner.run` invocation inside `WeatherAgent.query`
(weather_agent.py:86-114): the accumulated response text on normal
completion, a `ValueError` with its message, or any other exception with
its message. -/
inductive RunResult where
  | ok (text : String)
  | valueError (msg : String)
  | exc (msg : String)
deriving DecidableEq

/-- Character-list prefix test, used to embed Python's `in` on strings. -/
def isPrefixChars : List Char → List Char → Bool
  | [], _ => true
  | _ :: _, [] => false
  | a :: as, b :: bs => (a == b) && isPrefixChars as bs

/-- Character-list substring test. -/
def containsChars (needle : List Char) : List Char → Bool
  | [] => isPrefixChars needle []
  | c :: rest => isPrefixChars needle (c :: rest) || containsChars needle rest

/-- Python's `needle in hay` on strings. -/
def strContains (hay needle : String) : Bool := containsChars needle.data hay.data

/-- The session-expiry detection of weather_agent.py:103:
`"Session not found" in str(ve)`. -/
def sessionNotFoundIn (msg : String) : Bool := strContains msg "Session not found"

/-- `WeatherAgent.query` (weather_agent.py:68-120), driven by the stream of
outcomes of successive `runner.run` invocations.  A `ValueError` whose
message contains "Session not found" makes the method recreate the session
and re-invoke itself recursively, consuming the next outcome; any other
exception is converted to the apology string; an empty accumulated text
becomes "No response received.".  `none` means every provided outcome was
consumed by a further recursive retry (the recursion is still running). -/
def weather_query : List RunResult → Option String
  | [] => none
  | RunResult.ok t :: _ => some (if t = "" then "No response received." else t)
  | RunResult.valueError m :: rest =>
      if sessionNotFoundIn m then weather_query rest
      else some ("I apologize, but I encountered an error: " ++ m)
  | RunResult.exc m :: _ => some ("I apologize, but I encountered an error: " ++ m)

/-- How many `runner.run` attempts `WeatherAgent.query` makes on a given
outcome stream (the original attempt plus one per recursive retry). -/
def weather_query_attempts : List RunResult → Nat
  | [] => 0
  | RunResult.ok _ :: _ => 1
  | RunResult.valueError m :: rest =>
      if sessionNotFoundIn m then 1 + weather_query_attempts rest else 1
  | RunResult.exc _ :: _ => 1

/-- Counterexample to claim C7 as stated: when `runner.run` fails twice in
a row with a `ValueError` containing "Session not found" and succeeds on
the third invocation, `WeatherAgent.query` performs three attempts - two
retries beyond the original attempt, not at most one - and returns the
third attempt's text.  The recursive re-invocation carries no retry bound:
each level catches the error again and recurses again. -/
theorem weather_query_retries_more_than_once :
    weather_query_attempts
      [RunResult.valueError "Session not found",
       RunResult.valueError "Session not found", RunResult.ok "hi"] = 3
    ∧ weather_query
      [RunResult.valueError "Session not found",
       RunResult.valueError "Session not found", RunResult.ok "hi"] = some "hi" := by
  constructor
  · rfl
  · rfl

/-- Claim C7 amended: the session-expiry handling retries via recursive
re-invocation with no bound at all: if `runner.run` keeps failing with a
`ValueError` containing "Session not found", each recursive level
recreates the session and retries again, so n consecutive such failures
followed by a success give n + 1 attempts (n retries), the success's text
being returned. -/
theorem weather_query_unbounded_retry (n : Nat) (t : String) (rest : List RunResult) :
    weather_query
        (List.replicate n (RunResult.valueError "Session not found")
          ++ RunResult.ok t :: rest)
      = some (if t = "" then "No response received." else t)
    ∧ weather_query_attempts
        (List.replicate n (RunResult.valueError "Session not found")
          ++ RunResult.ok t :: rest)
      = n + 1 := by
  induction n with
  | zero => exact ⟨rfl, rfl⟩
  | succ k ih =>
      have hrep : List.replicate (k + 1) (RunResult.valueError "Session not found")
          = RunResult.valueError "Session not found"
            :: List.replicate k (RunResult.valueError "Session not found") :=
        List.replicate_succ _ _
      have hsnf : sessionNotFoundIn "Session not found" = true := rfl
      constructor
      · rw [hrep, List.cons_append, weather_query, if_pos hsnf]
        exact ih.1
      · rw [hrep, List.cons_append, weather_query_attempts, if_pos hsnf, ih.2]
        omega

/-! ### Error-handling boundaries (claim C6) -/

/-- The body of a finance tool call, abstracted as its outcome: `ok s`
when the inner code completes normally returning the string `s`, and
`error e` when any exception with message `e` is raised inside.  The
finance tools wrap their whole body in `try ... except Exception as e`
and return a prefixed message string (finance_tools.py). -/
def add_transaction_boundary (body : Except String String) : Except String String :=
  match body with
  | Except.ok s => Except.ok s
  | Except.error e => Except.ok ("Error adding transaction: " ++ e)

/-- `get_spending_summary` boundary (finance_tools.py:51-91). -/
def get_spending_summary_boundary (body : Except String String) : Except String String :=
  match body with
  | Except.ok s => Except.ok s
  | Except.error e => Except.ok ("Error getting spending summary: " ++ e)

/-- `manage_budget` boundary (finance_tools.py:94-145). -/
def manage_budget_boundary (body : Except String String) : Except String String :=
  match body with
  | Except.ok s => Except.ok s
  | Except.error e => Except.ok ("Error managing budget: " ++ e)

/-- `manage_goal` boundary (finance_tools.py:148-210). -/
def manage_goal_boundary (body : Except String String) : Except String String :=
  match body with
  | Except.ok s => Except.ok s
  | Except.error e => Except.ok ("Error managing goal: " ++ e)

/-- `ResearchAgent.generate_report` (research_agent.py:173-222) has no
try/except: after assembling the report it calls
`DocumentGenerator.save_report` when an output file was requested
(document_generator.py:203-227, a raw file open and write), and whatever
that save raises propagates unchanged to the caller. -/
def research_generate_report (report : String) (outputFile : Option String)
    (save : Except String Unit) : Except String String :=
  match outputFile with
  | none => Except.ok report
  | some _ =>
      match save with
      | Except.ok _ => Except.ok report
      | Except.error e => Except.error e

/-- Counterexample to claim C6 as stated: report generation does not catch
errors at its boundary; a failing save (for instance a missing output
directory) propagates out of `generate_report` as an exception instead of
being returned as an error string. -/
theorem generate_report_propagates_save_failure :
    research_generate_report "# Research Report: AI" (some "out")
        (Except.error "No such file or directory")
      = Except.error "No such file or directory" := rfl

/-- Claim C6 amended: the four finance tool operations catch every error
at their boundary and always return a string (never propagating, and with
no typed distinction between validation, storage and programming errors -
all become one prefixed message string); report generation however has no
boundary handler, and an error raised while saving the report propagates
unchanged to the caller. -/
theorem error_boundaries_spec :
    (∀ r, ∃ s, add_transaction_boundary r = Except.ok s)
    ∧ (∀ r, ∃ s, get_spending_summary_boundary r = Except.ok s)
    ∧ (∀ r, ∃ s, manage_budget_boundary r = Except.ok s)
    ∧ (∀ r, ∃ s, manage_goal_boundary r = Except.ok s)
    ∧ (∀ (rep f e : String),
        research_generate_report rep (some f) (Except.error e) = Except.error e) := by
  refine ⟨fun r => ?_, fun r => ?_, fun r => ?_, fun r => ?_, fun rep f e => rfl⟩
  all_goals cases r
  all_goals exact ⟨_, rfl⟩

/-! ### Structured report generation (claim C8)

`DocumentGenerator._generate_structured_report`
(document_generator.py:51-92), with the configuration values of
project2's config.py: `REPORT_TEMPLATE = "structured"`,
`INCLUDE_CITATIONS = True`, `CITATION_FORMAT = "markdown"`, and the
`additional_sections` parameter left at its default `None` (the claim
quantifies over topic, summary, findings and sources only).  The
timestamp inserted by `datetime.now().strftime(...)` is the parameter
`now`. -/

/-- The decimal digit character of `d < 10` (Python's `str`). -/
def digitChar (d : Nat) : Char := Char.ofNat (48 + d)

/-- Decimal digits of `n`, most significant first, with explicit fuel so
the definition is structurally recursive; `fuel = n + 1` always
suffices. -/
def natDigitsAux : Nat → Nat → List Char
  | 0, _ => []
  | fuel + 1, n =>
      if n < 10 then [digitChar n]
      else natDigitsAux fuel (n / 10) ++ [digitChar (n % 10)]

/-- Python's `str` on a natural number. -/
def natToStr (n : Nat) : String := String.mk (natDigitsAux (n + 1) n)

/-- A source record as consumed by `_format_citations`
(document_generator.py:177-201): the `title`, `link`, `url` and `source`
keys may each be absent. -/
structure Source where
  title : Option String
  link : Option String
  url : Option String
  source : Option String
deriving DecidableEq

/-- `source.get('title', 'Unknown Title')`. -/
def sourceTitle (s : Source) : String := s.title.getD "Unknown Title"

/-- `source.get('link', source.get('url', ''))`. -/
def sourceUrl (s : Source) : String := s.link.getD (s.url.getD "")

/-- `source.get('source', '')`. -/
def sourceName (s : Source) : String := s.source.getD ""

/-- One markdown citation entry: `f"{i}. [{title}]({url})"`. -/
def citationLine (i : Nat) (s : Source) : String :=
  natToStr i ++ (". [" ++ (sourceTitle s ++ ("](" ++ (sourceUrl s ++ ")"))))

/-- `_format_citations` in the configured "markdown" branch, enumerating
from 1; a truthy (non-empty) source name adds an indented attribution
line. -/
def citationLines : Nat → List Source → List String
  | _, [] => []
  | i, s :: rest =>
      citationLine i s ::
        ((if sourceName s = "" then [] else ["   Source: " ++ sourceName s])
          ++ citationLines (i + 1) rest)

/-- The numbered finding lines `f"{i}. {finding}"`, enumerating from 1. -/
def findingsLines : Nat → List String → List String
  | _, [] => []
  | i, f :: rest => (natToStr i ++ (". " ++ f)) :: findingsLines (i + 1) rest

/-- The `lines` list assembled by `_generate_structured_report`
(document_generator.py:60-91): header block, executive summary, the Key
Findings block when `findings` is truthy, no additional sections, and the
citations block when `sources` is truthy (citations are enabled by
config). -/
def structuredReportLines (topic summary : String) (findings : List String)
    (sources : List Source) (now : String) : List String :=
  ("# Research Report: " ++ topic)
    :: ("\n**Generated:** " ++ now)
    :: ("**Sources:** " ++ (natToStr sources.length ++ "\n"))
    :: "---\n"
    :: "## Executive Summary\n"
    :: summary
    :: "\n"
    :: ((if findings = [] then []
         else "## Key Findings\n" :: (findingsLines 1 findings ++ ["\n"]))
        ++ (if sources = [] then []
            else "## Sources and References\n" :: citationLines 1 sources))

/-- Python's `"\n".join(lines)`. -/
def joinNL : List String → String
  | [] => ""
  | [l] => l
  | l :: l2 :: ls => l ++ "\n" ++ joinNL (l2 :: ls)

/-- The structured report string returned by
`_generate_structured_report`. -/
def structuredReport (topic summary : String) (findings : List String)
    (sources : List Source) (now : String) : String :=
  joinNL (structuredReportLines topic summary findings sources now)

theorem digitChar_ne_hash (d : Nat) (hd : d < 10) : digitChar d ≠ '#' := by
  interval_cases d <;> decide

theorem natDigitsAux_cons :
    ∀ (f n : Nat), ∃ c cs, natDigitsAux (f + 1) n = c :: cs ∧ c ≠ '#' := by
  intro f
  induction f with
  | zero =>
      intro n
      by_cases h : n < 10
      · exact ⟨digitChar n, [], by simp only [natDigitsAux, if_pos h],
          digitChar_ne_hash n h⟩
      · refine ⟨digitChar (n % 10), [], ?_,
          digitChar_ne_hash _ (Nat.mod_lt _ (by norm_num))⟩
        simp only [natDigitsAux, if_neg h]
        rfl
  | succ f' ih =>
      intro n
      by_cases h : n < 10
      · exact ⟨digitChar n, [], by simp only [natDigitsAux, if_pos h],
          digitChar_ne_hash n h⟩
      · obtain ⟨c, cs, hcons, hc⟩ := ih (n / 10)
        refine ⟨c, cs ++ [digitChar (n % 10)], ?_, hc⟩
        have hstep : natDigitsAux (f' + 1 + 1) n
            = natDigitsAux (f' + 1) (n / 10) ++ [digitChar (n % 10)] := by
          rw [natDigitsAux, if_neg h]
        rw [hstep, hcons, List.cons_append]

/-- A line that starts with a decimal number is never the Key Findings
heading line. -/
theorem ne_heading_of_numbered (i : Nat) (x : String) :
    "## Key Findings\n" ≠ natToStr i ++ x := by
  intro h
  obtain ⟨c, cs, hcons, hc⟩ := natDigitsAux_cons i i
  have hd := congrArg String.data h
  rw [String.data_append] at hd
  have hnts : (natToStr i).data = natDigitsAux (i + 1) i := rfl
  rw [hnts, hcons, List.cons_append] at hd
  have hlit : ("## Key Findings\n").data = '#' :: ("# Key Findings\n").data := rfl
  rw [hlit] at hd
  injection hd with h1 _
  exact hc h1.symm

theorem ne_heading_source_line (x : String) :
    "## Key Findings\n" ≠ "   Source: " ++ x := by
  intro h
  have h2 : (some '#' : Option Char) = some ' ' :=
    congrArg (fun q : String => q.data.head?) h
  exact absurd h2 (by decide)

theorem ne_heading_topic_line (t : String) :
    "## Key Findings\n" ≠ "# Research Report: " ++ t := by
  intro h
  have h2 : (some '#' : Option Char) = some ' ' :=
    congrArg (fun q : String => (q.data.drop 1).head?) h
  exact absurd h2 (by decide)

theorem ne_heading_generated_line (t : String) :
    "## Key Findings\n" ≠ "\n**Generated:** " ++ t := by
  intro h
  have h2 : (some '#' : Option Char) = some (Char.ofNat 10) :=
    congrArg (fun q : String => q.data.head?) h
  exact absurd h2 (by decide)

theorem ne_heading_sources_line (t : String) :
    "## Key Findings\n" ≠ "**Sources:** " ++ t := by
  intro h
  have h2 : (some '#' : Option Char) = some '*' :=
    congrArg (fun q : String => q.data.head?) h
  exact absurd h2 (by decide)

theorem heading_not_mem_citationLines :
    ∀ (ss : List Source) (i : Nat), "## Key Findings\n" ∉ citationLines i ss := by
  intro ss
  induction ss with
  | nil => intro i h; simp [citationLines] at h
  | cons s rest ih =>
      intro i h
      rw [citationLines] at h
      rcases List.mem_cons.mp h with h1 | h2
      · exact ne_heading_of_numbered i _ h1
      · rcases List.mem_append.mp h2 with h3 | h4
        · by_cases hn : sourceName s = ""
          · rw [if_pos hn] at h3
            exact absurd h3 (List.not_mem_nil _)
          · rw [if_neg hn] at h3
            exact ne_heading_source_line _ (List.mem_singleton.mp h3)
        · exact ih (i + 1) h4

/-- Any member of the joined line list occurs literally inside the joined
string. -/
theorem joinNL_infix_of_mem :
    ∀ (l : List String) (s : String), s ∈ l →
      ∃ a b : List Char, (joinNL l).data = a ++ (s.data ++ b) := by
  intro l
  induction l with
  | nil => intro s hs; exact absurd hs (List.not_mem_nil _)
  | cons x xs ih =>
      intro s hs
      rcases List.mem_cons.mp hs with rfl | hmem
      · cases xs with
        | nil => exact ⟨[], [], by simp [joinNL]⟩
        | cons y ys =>
            refine ⟨[], '\n' :: (joinNL (y :: ys)).data, ?_⟩
            show ((s ++ "\n") ++ joinNL (y :: ys)).data = _
            simp [String.data_append, List.append_assoc]
      · cases xs with
        | nil => exact absurd hmem (List.not_mem_nil _)
        | cons y ys =>
            obtain ⟨a, b, hab⟩ := ih s hmem
            refine ⟨x.data ++ '\n' :: a, b, ?_⟩
            show ((x ++ "\n") ++ joinNL (y :: ys)).data = _
            simp [String.data_append, hab, List.append_assoc]

/-- Counterexample to claim C8 as stated: with an empty findings list but
a summary string that is exactly the heading line text, the generated
lines do contain the "## Key Findings" heading line (the summary is
reproduced verbatim), so "contains a Key Findings section iff findings is
non-empty" fails in the only-if direction at this concrete input. -/
theorem structured_report_keyfindings_counterexample :
    ¬ (("## Key Findings\n" ∈ structuredReportLines "T" "## Key Findings\n" [] [] "2025-01-01")
        ↔ (([] : List String) ≠ [])) := by
  decide

/-- Claim C8 amended: the structured report contains the topic string
literally and the summary string literally, and its line list contains
the "## Key Findings" heading line exactly when the findings list is
non-empty or the summary string is itself that heading text - the
generator emits the heading of its own only for non-empty findings, and
a summary equal to the heading text is reproduced verbatim. -/
theorem structured_report_spec (t s now : String) (fs : List String)
    (ss : List Source) :
    (∃ a b : List Char, (structuredReport t s fs ss now).data = a ++ (t.data ++ b))
    ∧ (∃ a b : List Char, (structuredReport t s fs ss now).data = a ++ (s.data ++ b))
    ∧ (("## Key Findings\n" ∈ structuredReportLines t s fs ss now)
        ↔ (fs ≠ [] ∨ s = "## Key Findings\n")) := by
  refine ⟨?_, ?_, ?_⟩
  · have hmem : ("# Research Report: " ++ t) ∈ structuredReportLines t s fs ss now :=
      List.mem_cons_self _ _
    obtain ⟨a, b, hab⟩ := joinNL_infix_of_mem _ _ hmem
    rw [String.data_append] at hab
    refine ⟨a ++ ("# Research Report: ").data, b, ?_⟩
    rw [structuredReport, hab]
    simp [List.append_assoc]
  · have hmem : s ∈ structuredReportLines t s fs ss now := by
      simp [structuredReportLines]
    obtain ⟨a, b, hab⟩ := joinNL_infix_of_mem _ _ hmem
    exact ⟨a, b, hab⟩
  · constructor
    · intro hmem
      simp only [structuredReportLines, List.mem_cons] at hmem
      rcases hmem with h | h | h | h | h | h | h | h
      · exact absurd h (ne_heading_topic_line t)
      · exact absurd h (ne_heading_generated_line now)
      · exact absurd h (ne_heading_sources_line _)
      · exact absurd h (by decide)
      · exact absurd h (by decide)
      · exact Or.inr h.symm
      · exact absurd h (by decide)
      · rcases List.mem_append.mp h with hB | hC
        · by_cases hfs : fs = []
          · rw [if_pos hfs] at hB
            exact absurd hB (List.not_mem_nil _)
          · exact Or.inl hfs
        · by_cases hss : ss = []
          · rw [if_pos hss] at hC
            exact absurd hC (List.not_mem_nil _)
          · rw [if_neg hss] at hC
            rcases List.mem_cons.mp hC with h1 | h2
            · exact absurd h1 (by decide)
            · exact absurd h2 (heading_not_mem_citationLines ss 1)
    · intro h
      rcases h with hfs | hs
      · have hB : "## Key Findings\n"
            ∈ (if fs = [] then []
               else "## Key Findings\n" :: (findingsLines 1 fs ++ ["\n"])) := by
          rw [if_neg hfs]
          exact List.mem_cons_self _ _
        simp only [structuredReportLines, List.mem_cons]
        exact Or.inr (Or.inr (Or.inr (Or.inr (Or.inr (Or.inr (Or.inr
          (List.mem_append.mpr (Or.inl hB))))))))
      · simp only [structuredReportLines, List.mem_cons]
        exact Or.inr (Or.inr (Or.inr (Or.inr (Or.inr (Or.inl hs.symm)))))

end ADK
